import Mathlib

/-!
Verification development for the federation layer of the conduwuit homeserver
(src/api/server_server.rs). The definitions below are a shallow embedding of
the Rust source: pure logic of the source functions is translated directly,
stateful services (destination cache, backoff ledgers, to-device store, room
state) become explicit state passing, and external collaborators (ruma
parsers, serde deserialization, network transport, the event-admission
operation) become function parameters. Fallible code returns Except or
Option values.
-/

set_option autoImplicit false

namespace Conduit

/-- Error kinds mirroring the subset of ruma ErrorKind used by the federation
layer. -/
inductive ErrorKind where
  | forbidden
  | invalidParam
  | notFound
  | unknown
  deriving DecidableEq, Repr

/-- Error type mirroring the conduit Error variants reachable from the
federation layer. -/
inductive Error where
  | badConfig (msg : String)
  | badServerResponse (msg : String)
  | badRequest (kind : ErrorKind) (msg : String)
  | badDatabase (msg : String)
  | federationError (origin : String)
  | networkError
  deriving DecidableEq, Repr

/-! ## Destination resolution (FedDest, get_ip_with_port, add_port_to_hostname) -/

/-- IP address model. The internal shape of addresses is irrelevant to the
federation logic; parsing of the textual forms is done by the Rust standard
library (an external collaborator) and is therefore a parameter below. -/
inductive IpAddr where
  | v4 (a b c d : Nat)
  | v6 (segments : List Nat)
  deriving DecidableEq, Repr

/-- Socket address: an IP address together with a port. -/
structure SocketAddr where
  ip : IpAddr
  port : Nat
  deriving DecidableEq, Repr

/-- FedDest from server_server.rs: either a literal socket address, or a
hostname plus complement (colon-plus-port if it was specified). -/
inductive FedDest where
  | Literal (addr : SocketAddr)
  | Named (host : String) (port : String)
  deriving DecidableEq, Repr

/-- Translation of get_ip_with_port. The two std parsers
(str parse to SocketAddr and str parse to IpAddr) are external collaborators
passed as parameters. -/
def get_ip_with_port (parseSocketAddr : String → Option SocketAddr)
    (parseIpAddr : String → Option IpAddr) (destination_str : String) :
    Option FedDest :=
  match parseSocketAddr destination_str with
  | some destination => some (FedDest.Literal destination)
  | none =>
    match parseIpAddr destination_str with
    | some ip_addr => some (FedDest.Literal { ip := ip_addr, port := 8448 })
    | none => none

/-- Translation of add_port_to_hostname: split at the first colon if present,
otherwise append the default port suffix. find-then-split_at in the source is
modelled by takeWhile and dropWhile at the first colon. -/
def add_port_to_hostname (destination_str : String) : FedDest :=
  if destination_str.data.contains ':' then
    FedDest.Named (String.mk (destination_str.data.takeWhile (fun c => c != ':')))
      (String.mk (destination_str.data.dropWhile (fun c => c != ':')))
  else
    FedDest.Named destination_str ":8448"

/-- Translation of FedDest.into_uri_string. Literal rendering of socket
addresses is kept abstract via a fixed rendering function. -/
def IpAddr.render : IpAddr → String
  | IpAddr.v4 a b c d =>
    toString a ++ "." ++ toString b ++ "." ++ toString c ++ "." ++ toString d
  | IpAddr.v6 segments => "[" ++ String.intercalate ":" (segments.map toString) ++ "]"

/-- Rendering of a socket address to a string, as used by into_uri_string. -/
def SocketAddr.render (addr : SocketAddr) : String :=
  addr.ip.render ++ ":" ++ toString addr.port

/-- Translation of FedDest.into_uri_string. -/
def FedDest.into_uri_string : FedDest → String
  | FedDest.Literal addr => addr.render
  | FedDest.Named host port => host ++ port

/-- Translation of FedDest.into_https_string. -/
def FedDest.into_https_string : FedDest → String
  | FedDest.Literal addr => "https://" ++ addr.render
  | FedDest.Named host port => "https://" ++ host ++ port

/-! ## Server ACL check (acl_check) -/

/-- Model of ruma RoomServerAclEventContent: all the federation code uses is
the is_allowed predicate over server names, so the content is modelled by
that predicate (pattern matching itself lives in ruma, an external
collaborator). -/
structure RoomServerAclEventContent where
  is_allowed : String → Bool

/-- External collaborators used by acl_check: the room-state reader returning
the raw ACL event content, and serde deserialization of that content. -/
structure AclEnv where
  room_state_acl : String → Option String
  deserialize_acl : String → Option RoomServerAclEventContent

/-- Translation of acl_check: no ACL event means allowed, an ACL event whose
content fails to deserialize means allowed, otherwise the is_allowed verdict
decides between Ok and a Forbidden error. -/
def acl_check (env : AclEnv) (server_name : String) (room_id : String) :
    Except Error Unit :=
  match env.room_state_acl room_id with
  | none => Except.ok ()
  | some acl_event =>
    match env.deserialize_acl acl_event with
    | none => Except.ok ()
    | some acl_event_content =>
      if acl_event_content.is_allowed server_name then Except.ok ()
      else Except.error (Error.badRequest ErrorKind.forbidden "Server was denied by ACL")

/-! ## Signed request dispatcher (send_request) -/

/-- Destination cache: mapping from server name to the resolved actual
destination and the host header string. -/
abbrev DestCache := List (String × (FedDest × String))

/-- External collaborators and request-specific outcomes for one call of
send_request: the federation toggle, the resolver, the request builder
outcome, and the network outcome. The network field is none on a transport
error and otherwise carries the HTTP status, whether the typed 200 response
decoded, and whether a non-200 error body decoded. -/
structure SendReqEnv where
  allow_federation : Bool
  find_actual_destination : String → FedDest × FedDest
  build_request_ok : String → Bool
  network : Option (Nat × Bool × Bool)

/-- Translation of send_request, with the destination cache threaded
explicitly. Returns the call result together with the cache after the call.
The cache is written only on the success path, and only when the destination
was freshly resolved. -/
def send_request (env : SendReqEnv) (cache : DestCache) (destination : String) :
    Except Error Unit × DestCache :=
  if !env.allow_federation then
    (Except.error (Error.badConfig "Federation is disabled."), cache)
  else
    let cached_result := cache.lookup destination
    let write_destination_to_cache := cached_result.isNone
    let resolved :=
      match cached_result with
      | some result => result
      | none =>
        let result := env.find_actual_destination destination
        (result.1, result.2.into_uri_string)
    let actual_destination_str := resolved.1.into_https_string
    if !env.build_request_ok actual_destination_str then
      (Except.error (Error.badServerResponse "Invalid destination"), cache)
    else
      match env.network with
      | none => (Except.error Error.networkError, cache)
      | some (status, decode200_ok, decode_error_ok) =>
        if status == 200 then
          if decode200_ok then
            (Except.ok (),
              if write_destination_to_cache then (destination, resolved) :: cache
              else cache)
          else
            (Except.error (Error.badServerResponse "Server returned bad 200 response."), cache)
        else
          if decode_error_ok then
            (Except.error (Error.federationError destination), cache)
          else
            (Except.error (Error.badServerResponse "Server returned bad error response."), cache)

/-! ## Transaction ingestion: PDU loop (send_transaction_message_route) -/

/-- Model of a canonical JSON object as far as the transaction and join code
inspects it: the optional string values of the room_id and origin fields. -/
structure CanonicalJsonObject where
  room_id : Option String
  origin : Option String
  deriving DecidableEq, Repr

/-- External collaborators of the PDU loop: event-id derivation with
canonical-json conversion (service::pdu), room id validation (ruma), the ACL
reading environment, and the external event-admission operation
handle_incoming_pdu whose outcome is recorded per event in the resolved map
(errors are recorded as strings, mirroring the source comparing the error
display against a known benign message). -/
structure TxnEnv where
  gen_event_id_canonical_json : String → Option (String × CanonicalJsonObject)
  parse_room_id : String → Option String
  acl : AclEnv
  handle_incoming_pdu : String → String → String → CanonicalJsonObject → Except String Unit

/-- Translation of the PDU loop of send_transaction_message_route. The
resolved map is modelled as the list of key-value pairs in insertion order.
A PDU failing canonical-json conversion is skipped with no entry; a missing
or invalid room id inserts a failure entry and continues; an ACL denial
propagates out of the whole loop via the question-mark operator in the
source. -/
def process_pdus (env : TxnEnv) (sender_servername : String) :
    List String → Except Error (List (String × Except String Unit))
  | [] => Except.ok []
  | pdu :: rest =>
    match env.gen_event_id_canonical_json pdu with
    | none => process_pdus env sender_servername rest
    | some (event_id, value) =>
      match value.room_id.bind env.parse_room_id with
      | none =>
        match process_pdus env sender_servername rest with
        | Except.ok tail =>
          Except.ok ((event_id, Except.error "Event needs a valid RoomId.") :: tail)
        | Except.error e => Except.error e
      | some room_id =>
        match acl_check env.acl sender_servername room_id with
        | Except.error e => Except.error e
        | Except.ok _ =>
          match process_pdus env sender_servername rest with
          | Except.ok tail =>
            Except.ok
              ((event_id, env.handle_incoming_pdu sender_servername event_id room_id value) :: tail)
          | Except.error e => Except.error e

/-! ## Transaction ingestion: EDU loop, DirectToDevice (send_transaction_message_route) -/

/-- Target of one to-device message: a named device or all devices of the
user. -/
inductive DeviceIdOrAllDevices where
  | deviceId (id : String)
  | allDevices
  deriving DecidableEq, Repr

/-- Model of ruma DirectDeviceContent. -/
structure DirectDeviceContent where
  sender : String
  ev_type : String
  message_id : String
  messages : List (String × List (DeviceIdOrAllDevices × String))
  deriving DecidableEq, Repr

/-- One delivered to-device event, as recorded by add_to_device_event. -/
structure Delivery where
  sender : String
  target_user : String
  target_device : String
  ev_type : String
  event : String
  deriving DecidableEq, Repr

/-- State touched by DirectToDevice processing: the transaction-id
idempotency ledger (key is user, optional device, transaction id; value is
the stored data bytes) and the list of deliveries performed so far. -/
structure DeviceState where
  txn_ledger : List ((String × Option String × String) × List Nat)
  deliveries : List Delivery
  deriving DecidableEq, Repr

/-- External collaborators of DirectToDevice processing: device enumeration
and deserialization of the raw message content. -/
structure DeviceEnv where
  all_device_ids : String → List String
  deserialize_event : String → Option String

/-- Translation of services().users.add_to_device_event combined with the
deserialization at the call site: a failing deserialization produces the
InvalidParam error of the source, otherwise the delivery is appended. -/
def add_to_device_event (env : DeviceEnv) (st : DeviceState) (sender target_user
    target_device ev_type event : String) : DeviceState × Option Error :=
  match env.deserialize_event event with
  | none => (st, some (Error.badRequest ErrorKind.invalidParam "Event is invalid"))
  | some ev =>
    ({ st with deliveries := st.deliveries ++ [⟨sender, target_user, target_device, ev_type, ev⟩] },
      none)

/-- Fan-out of one message to every device of the target user, aborting on
the first failure, mirroring the AllDevices arm of the source. -/
def deliver_to_all_devices (env : DeviceEnv) (st : DeviceState)
    (sender ev_type target_user event : String) :
    List String → DeviceState × Option Error
  | [] => (st, none)
  | d :: rest =>
    match add_to_device_event env st sender target_user d ev_type event with
    | (st1, none) => deliver_to_all_devices env st1 sender ev_type target_user event rest
    | (st1, some e) => (st1, some e)

/-- Fan-out over the per-device map of one target user. -/
def deliver_user_map (env : DeviceEnv) (st : DeviceState)
    (sender ev_type target_user : String) :
    List (DeviceIdOrAllDevices × String) → DeviceState × Option Error
  | [] => (st, none)
  | (DeviceIdOrAllDevices.deviceId d, event) :: rest =>
    match add_to_device_event env st sender target_user d ev_type event with
    | (st1, none) => deliver_user_map env st1 sender ev_type target_user rest
    | (st1, some e) => (st1, some e)
  | (DeviceIdOrAllDevices.allDevices, event) :: rest =>
    match deliver_to_all_devices env st sender ev_type target_user event
        (env.all_device_ids target_user) with
    | (st1, none) => deliver_user_map env st1 sender ev_type target_user rest
    | (st1, some e) => (st1, some e)

/-- Fan-out over all target users of a DirectToDevice EDU. -/
def deliver_messages (env : DeviceEnv) (st : DeviceState) (sender ev_type : String) :
    List (String × List (DeviceIdOrAllDevices × String)) → DeviceState × Option Error
  | [] => (st, none)
  | (target_user, m) :: rest =>
    match deliver_user_map env st sender ev_type target_user m with
    | (st1, none) => deliver_messages env st1 sender ev_type rest
    | (st1, some e) => (st1, some e)

/-- Translation of the DirectToDevice arm of the EDU loop: skip entirely when
the transaction id is already recorded, otherwise fan the messages out and
only on full success record the transaction id with empty data. -/
def process_direct_to_device (env : DeviceEnv) (st : DeviceState)
    (c : DirectDeviceContent) : DeviceState × Option Error :=
  if (st.txn_ledger.lookup (c.sender, (none : Option String), c.message_id)).isSome then
    (st, none)
  else
    match deliver_messages env st c.sender c.ev_type c.messages with
    | (st1, some e) => (st1, some e)
    | (st1, none) =>
      ({ st1 with
          txn_ledger := ((c.sender, (none : Option String), c.message_id), ([] : List Nat))
            :: st1.txn_ledger },
        none)

/-- EDU model: the DirectToDevice variant carries content; every other EDU
kind is irrelevant to the claims here and is collapsed into one ignored
constructor. -/
inductive Edu where
  | directToDevice (content : DirectDeviceContent)
  | otherKind
  deriving DecidableEq, Repr

/-- The EDU loop restricted to the state-relevant DirectToDevice arm; other
kinds are no-ops here. An error aborts the loop, mirroring the
question-mark operator in the source. -/
def process_edus (env : DeviceEnv) (st : DeviceState) :
    List Edu → DeviceState × Option Error
  | [] => (st, none)
  | Edu.directToDevice c :: rest =>
    match process_direct_to_device env st c with
    | (st1, none) => process_edus env st1 rest
    | (st1, some e) => (st1, some e)
  | Edu.otherKind :: rest => process_edus env st rest

/-- Translation of send_transaction_message_route: the federation toggle
check, the PDU loop, then the EDU loop. A PDU-loop error propagates out
before any EDU is processed and the resolved map is discarded; an EDU-loop
error discards the resolved map as well. -/
def send_transaction_message_route (env : TxnEnv) (denv : DeviceEnv)
    (allow_federation : Bool) (st : DeviceState) (sender_servername : String)
    (pdus : List String) (edus : List Edu) :
    DeviceState × Except Error (List (String × Except String Unit)) :=
  if !allow_federation then
    (st, Except.error (Error.badConfig "Federation is disabled."))
  else
    match process_pdus env sender_servername pdus with
    | Except.error e => (st, Except.error e)
    | Except.ok resolved_map =>
      match process_edus denv st edus with
      | (st1, some e) => (st1, Except.error e)
      | (st1, none) => (st1, Except.ok resolved_map)

/-! ## Signing key manager (fetch_signing_keys) -/

/-- Key map: signing key id to base64 public key. -/
abbrev KeyMap := List (String × String)

/-- Translation of the contains_all_ids closure. -/
def contains_all_ids (signature_ids : List String) (keys : KeyMap) : Bool :=
  signature_ids.all (fun id => (keys.lookup id).isSome)

/-- BTreeMap extend: insert one binding, overwriting any existing binding for
the same key. -/
def map_insert (m : KeyMap) (kv : String × String) : KeyMap :=
  if (m.lookup kv.1).isSome then
    m.map (fun p => if p.1 == kv.1 then kv else p)
  else m ++ [kv]

/-- BTreeMap extend over a whole key map. -/
def merge_keys (m : KeyMap) (new : KeyMap) : KeyMap :=
  new.foldl map_insert m

/-- Backoff ledger: rate-limit key (the exact vector of signature ids) to
last-attempt time and attempt count. Time is modelled in seconds. -/
abbrev BackoffLedger := List (List String × (Nat × Nat))

/-- Translation of the back_off closure of fetch_signing_keys: a vacant entry
is created with count 1, an occupied entry gets the current time and an
incremented count. -/
def back_off (now : Nat) (id : List String) : BackoffLedger → BackoffLedger
  | [] => [(id, (now, 1))]
  | (k, (t, n)) :: rest =>
    if k == id then (k, (now, n + 1)) :: rest
    else (k, (t, n)) :: back_off now id rest

/-- Recording a sequence of failures on the same key, each with its time. -/
def record_failures (id : List String) (times : List Nat) (ledger : BackoffLedger) :
    BackoffLedger :=
  times.foldl (fun l now => back_off now id l) ledger

/-- Translation of the exponential backoff window computation: 30 seconds
times the square of the attempt count, capped at 24 hours. -/
def min_elapsed_duration (tries : Nat) : Nat :=
  min (30 * tries * tries) 86400

/-- Local state read by fetch_signing_keys: the bad-signature backoff ledger,
the locally cached signing keys per origin, and the configured trusted
notary servers. -/
structure FskEnv where
  bad_signature_ratelimiter : BackoffLedger
  signing_keys_for : String → KeyMap
  trusted_servers : List String

/-- Network oracles of fetch_signing_keys: the direct key query against the
origin (verify keys and old verify keys on success) and the notary query per
trusted server (a list of key responses on success). -/
structure FskNet where
  direct_server_key : Option (KeyMap × KeyMap)
  notary_server_keys : String → Option (List (KeyMap × KeyMap))

/-- Notary fallback loop of fetch_signing_keys over the trusted servers. On
exhaustion the failure is recorded in the backoff ledger and the fetch fails.
Returns the result together with the ledger after the call. -/
def notary_loop (env : FskEnv) (net : FskNet) (signature_ids : List String)
    (now : Nat) (result : KeyMap) :
    List String → Except Error KeyMap × BackoffLedger
  | [] =>
    (Except.error (Error.badServerResponse "Failed to find public key for server"),
      back_off now signature_ids env.bad_signature_ratelimiter)
  | server :: rest =>
    match net.notary_server_keys server with
    | some server_keys =>
      let result1 := server_keys.foldl
        (fun acc kk => merge_keys (merge_keys acc kk.1) kk.2) result
      if contains_all_ids signature_ids result1 then
        (Except.ok result1, env.bad_signature_ratelimiter)
      else notary_loop env net signature_ids now result1 rest
    | none => notary_loop env net signature_ids now result rest

/-- Cache read and fetch cascade of fetch_signing_keys, after the backoff
gate has been passed: local cache, then the direct query, then the notary
loop. -/
def fetch_signing_keys_main (env : FskEnv) (net : FskNet) (origin : String)
    (signature_ids : List String) (now : Nat) :
    Except Error KeyMap × BackoffLedger :=
  let result := env.signing_keys_for origin
  if contains_all_ids signature_ids result then
    (Except.ok result, env.bad_signature_ratelimiter)
  else
    match net.direct_server_key with
    | some (verify_keys, old_verify_keys) =>
      let result1 := merge_keys (merge_keys result verify_keys) old_verify_keys
      if contains_all_ids signature_ids result1 then
        (Except.ok result1, env.bad_signature_ratelimiter)
      else notary_loop env net signature_ids now result1 env.trusted_servers
    | none => notary_loop env net signature_ids now result env.trusted_servers

/-- Translation of fetch_signing_keys. The per-server semaphore permit is
concurrency control and is not modelled. The backoff ledger is consulted
first: inside the window the call fails fast; otherwise the cascade of
fetch_signing_keys_main runs. Returns the result and the ledger after the
call. -/
def fetch_signing_keys (env : FskEnv) (net : FskNet) (origin : String)
    (signature_ids : List String) (now : Nat) :
    Except Error KeyMap × BackoffLedger :=
  match env.bad_signature_ratelimiter.lookup signature_ids with
  | some (time, tries) =>
    if now - time < min_elapsed_duration tries then
      (Except.error (Error.badServerResponse "bad signature, still backing off"),
        env.bad_signature_ratelimiter)
    else fetch_signing_keys_main env net origin signature_ids now
  | none => fetch_signing_keys_main env net origin signature_ids now

/-! ## Auth chain resolver (get_auth_chain_inner) -/

structure Pdu where
  room_id : String
  auth_events : List String
  deriving DecidableEq, Repr

/-- Finite association-list model of the PDU store. -/
abbrev PduStore := List (String × Pdu)

/-- Lookup of a stored PDU by event id, modelling the get_pdu accessor over a
finite association-list store. A storage read error of the source is merged
into the absent case, since both are logged and skipped by the walk. -/
def find_pdu : PduStore → String → Option Pdu
  | [], _ => none
  | (k, p) :: rest, id => if k == id then some p else find_pdu rest id

/-- Translation of the inner for loop over auth_events of one fetched PDU:
every auth event whose short id is not yet in the found set is inserted into
found and pushed onto the todo stack (modelled with the stack top at the list
head). -/
def collect_new_auth (sid : String → Nat) :
    List String → List Nat → List String → List Nat × List String
  | [], found, todo => (found, todo)
  | auth_event :: rest, found, todo =>
    if found.contains (sid auth_event) then collect_new_auth sid rest found todo
    else collect_new_auth sid rest (sid auth_event :: found) (auth_event :: todo)

/-- All event ids referenced as auth events anywhere in the store. The walk
only ever pushes members of this finite list, which bounds the found set and
yields termination. -/
def auth_universe (store : PduStore) : List String :=
  (store.map (fun kv => kv.2.auth_events)).flatten

/-- Number of auth-universe members whose short id is not yet in the found
set: the primary component of the termination measure of the walk. -/
def missing_count (store : PduStore) (sid : String → Nat) (found : List Nat) : Nat :=
  ((auth_universe store).filter (fun e => !found.contains (sid e))).length

/-- Translation of the while-let loop of get_auth_chain_inner: pop an event,
skip it if absent from storage, fail on a room mismatch, otherwise collect
its unseen auth events into the found set and the todo stack. -/
def get_auth_chain_walk (store : PduStore) (sid : String → Nat) (room_id : String) :
    List String → List Nat → Except Error (List Nat)
  | [], found => Except.ok found
  | event_id :: rest, found =>
    match hfp : find_pdu store event_id with
    | some pdu =>
      if pdu.room_id == room_id then
        get_auth_chain_walk store sid room_id
          (collect_new_auth sid pdu.auth_events found rest).2
          (collect_new_auth sid pdu.auth_events found rest).1
      else Except.error (Error.badRequest ErrorKind.forbidden "Evil event in db")
    | none => get_auth_chain_walk store sid room_id rest found
  termination_by todo found => (missing_count store sid found, todo.length)
  decreasing_by
  · -- the pdu was found and is in the right room: either nothing new was
    -- collected and the todo list shrank, or the found set strictly grew
    -- inside the finite auth universe
    have hmono : ∀ (aes : List String) (fnd : List Nat) (td : List String) (x : Nat),
        x ∈ fnd → x ∈ (collect_new_auth sid aes fnd td).1 := by
      intro aes
      induction aes with
      | nil => intro fnd td x hx; simpa [collect_new_auth] using hx
      | cons a rst ih =>
        intro fnd td x hx
        by_cases hm : sid a ∈ fnd
        · simpa [collect_new_auth, hm] using ih fnd td x hx
        · simpa [collect_new_auth, hm] using ih (sid a :: fnd) (a :: td) x
            (List.mem_cons_of_mem _ hx)
    have hunchanged : ∀ (aes : List String) (fnd : List Nat) (td : List String),
        (collect_new_auth sid aes fnd td).1 = fnd →
        (collect_new_auth sid aes fnd td).2 = td := by
      intro aes
      induction aes with
      | nil => intro fnd td _; simp [collect_new_auth]
      | cons a rst ih =>
        intro fnd td h1
        by_cases hm : sid a ∈ fnd
        · rw [show collect_new_auth sid (a :: rst) fnd td
              = collect_new_auth sid rst fnd td by simp [collect_new_auth, hm]] at h1 ⊢
          exact ih fnd td h1
        · exfalso
          rw [show collect_new_auth sid (a :: rst) fnd td
              = collect_new_auth sid rst (sid a :: fnd) (a :: td) by
            simp [collect_new_auth, hm]] at h1
          have hin : sid a ∈ (collect_new_auth sid rst (sid a :: fnd) (a :: td)).1 :=
            hmono rst (sid a :: fnd) (a :: td) (sid a) (List.mem_cons_self _ _)
          rw [h1] at hin
          exact hm hin
    have hnew : ∀ (aes : List String) (fnd : List Nat) (td : List String),
        (collect_new_auth sid aes fnd td).1 ≠ fnd →
        ∃ ae, ae ∈ aes ∧ sid ae ∉ fnd ∧
          sid ae ∈ (collect_new_auth sid aes fnd td).1 := by
      intro aes
      induction aes with
      | nil => intro fnd td hne; exact absurd rfl hne
      | cons a rst ih =>
        intro fnd td hne
        by_cases hm : sid a ∈ fnd
        · rw [show collect_new_auth sid (a :: rst) fnd td
              = collect_new_auth sid rst fnd td by simp [collect_new_auth, hm]] at hne ⊢
          obtain ⟨ae, h1, h2, h3⟩ := ih fnd td hne
          exact ⟨ae, List.mem_cons_of_mem _ h1, h2, h3⟩
        · refine ⟨a, List.mem_cons_self _ _, hm, ?_⟩
          rw [show collect_new_auth sid (a :: rst) fnd td
              = collect_new_auth sid rst (sid a :: fnd) (a :: td) by
            simp [collect_new_auth, hm]]
          exact hmono rst (sid a :: fnd) (a :: td) (sid a) (List.mem_cons_self _ _)
    have hfilter_le : ∀ (p q : String → Bool), (∀ a, p a = true → q a = true) →
        ∀ (l : List String), (l.filter p).length ≤ (l.filter q).length := by
      intro p q hpq l
      induction l with
      | nil => simp
      | cons a tl ih =>
        by_cases hp : p a = true
        · simp only [List.filter_cons, hp, hpq a hp, if_true, List.length_cons]
          exact Nat.succ_le_succ ih
        · simp only [Bool.not_eq_true] at hp
          cases hq : q a
          · simp only [List.filter_cons, hp, hq, Bool.false_eq_true, if_false]
            exact ih
          · simp only [List.filter_cons, hp, hq, Bool.false_eq_true, if_false, if_true,
              List.length_cons]
            exact Nat.le_succ_of_le ih
    have hfilter_lt : ∀ (p q : String → Bool), (∀ a, p a = true → q a = true) →
        ∀ (l : List String) (x : String), x ∈ l → q x = true → p x = false →
        (l.filter p).length < (l.filter q).length := by
      intro p q hpq l
      induction l with
      | nil => intro x hx; exact absurd hx (List.not_mem_nil x)
      | cons a tl ih =>
        intro x hx hqx hpx
        rcases List.mem_cons.1 hx with hxa | hxtl
        · subst hxa
          simp only [List.filter_cons, hpx, hqx, Bool.false_eq_true, if_false, if_true,
            List.length_cons]
          exact Nat.lt_succ_of_le (hfilter_le p q hpq tl)
        · by_cases hpa : p a = true
          · simp only [List.filter_cons, hpa, hpq a hpa, if_true, List.length_cons]
            exact Nat.succ_lt_succ (ih x hxtl hqx hpx)
          · simp only [Bool.not_eq_true] at hpa
            cases hqa : q a
            · simp only [List.filter_cons, hpa, hqa, Bool.false_eq_true, if_false]
              exact ih x hxtl hqx hpx
            · simp only [List.filter_cons, hpa, hqa, Bool.false_eq_true, if_false, if_true,
                List.length_cons]
              exact Nat.lt_succ_of_lt (ih x hxtl hqx hpx)
    by_cases hf : (collect_new_auth sid pdu.auth_events found rest).1 = found
    · have h2 := hunchanged pdu.auth_events found rest hf
      rw [hf, h2]
      have hlen : rest.length < (event_id :: rest).length := by simp
      exact Prod.Lex.right _ hlen
    · apply Prod.Lex.left
      obtain ⟨ae, hae_mem, hae_not, hae_in⟩ := hnew pdu.auth_events found rest hf
      have hfind_mem : ∀ (s : PduStore) (i : String) (p : Pdu), find_pdu s i = some p →
          p.auth_events ∈ s.map (fun kv => kv.2.auth_events) := by
        intro s
        induction s with
        | nil => intro i p h; simp [find_pdu] at h
        | cons kv tl ih =>
          intro i p h
          cases kv with
          | mk k v =>
            by_cases hk : k = i
            · simp only [find_pdu, hk, beq_self_eq_true, if_true, Option.some.injEq] at h
              subst h
              exact List.mem_cons_self _ _
            · rw [show find_pdu ((k, v) :: tl) i = find_pdu tl i by
                simp [find_pdu, hk]] at h
              exact List.mem_cons_of_mem _ (ih i p h)
      have hae_univ : ae ∈ auth_universe store :=
        List.mem_flatten.2 ⟨pdu.auth_events, hfind_mem store event_id pdu hfp, hae_mem⟩
      unfold missing_count
      apply hfilter_lt
      · intro a ha
        simp only [Bool.not_eq_true', List.elem_eq_mem, decide_eq_false_iff_not] at ha ⊢
        exact fun hmem => ha (hmono pdu.auth_events found rest (sid a) hmem)
      · exact hae_univ
      · simp only [Bool.not_eq_true', List.elem_eq_mem, decide_eq_false_iff_not]
        exact hae_not
      · simp only [List.elem_eq_mem, hae_in, decide_True, Bool.not_true]
  · -- the pdu was missing from storage: the todo list shrank
    have hlen : rest.length < (event_id :: rest).length := by simp
    exact Prod.Lex.right _ hlen

/-- Translation of get_auth_chain_inner: run the walk from the given starting
event with an empty found set. The short-id allocator of the store layer is
the parameter sid. -/
def get_auth_chain_inner (store : PduStore) (sid : String → Nat) (room_id : String)
    (event_id : String) : Except Error (List Nat) :=
  get_auth_chain_walk store sid room_id [event_id] []

/-! ## Join acceptance (create_join_event) -/

/-- Model of ruma RoomJoinRulesEventContent as far as create_join_event
inspects it: whether the join rule matches JoinRule Restricted. -/
structure RoomJoinRulesEventContent where
  restricted : Bool

/-- Room-service state read and written around join acceptance. All snapshot
and state readers are total functions of this explicit state so that the
capture of the state hash before admission is observable. -/
structure RoomsState where
  room_exists : String → Bool
  acl_blob : String → Option String
  join_rules_blob : String → Option String
  current_shortstatehash : String → Option Nat
  snapshots : Nat → List String
  pdu_store : String → Bool

/-- External collaborators of create_join_event: the federation toggle,
deserializers, event id derivation, origin parsing, the external admission
operation handle_incoming_pdu (which may update the rooms state and returns
an optional pdu id), and the auth chain computation over the resulting
state. -/
structure JoinEnv where
  allow_federation : Bool
  deserialize_acl : String → Option RoomServerAclEventContent
  deserialize_join_rules : String → Option RoomJoinRulesEventContent
  gen_event_id_canonical_json : String → Option (String × CanonicalJsonObject)
  parse_server_name : String → Option String
  handle_incoming_pdu :
    RoomsState → String → String → String → CanonicalJsonObject →
      RoomsState × Except String (Option String)
  auth_chain_of : RoomsState → String → List String → List String

/-- Response of create_join_event: the pre-join state snapshot and its auth
chain, both given as lists of event ids of the PDUs serialized in the
source. -/
structure RoomStateResp where
  auth_chain : List String
  state : List String
  deriving DecidableEq, Repr

/-- Admission tail of create_join_event, entered after the room existence,
ACL and join-rule gates: capture the current state hash, derive the event id,
extract the origin, admit the event via handle_incoming_pdu, then build the
returned state and auth chain from the captured pre-join hash. -/
def create_join_event_admit (env : JoinEnv) (st : RoomsState)
    (room_id : String) (pdu : String) : RoomsState × Except Error RoomStateResp :=
  match st.current_shortstatehash room_id with
  | none => (st, Except.error (Error.badRequest ErrorKind.notFound "Pdu state not found."))
  | some shortstatehash =>
    match env.gen_event_id_canonical_json pdu with
    | none =>
      (st, Except.error
        (Error.badRequest ErrorKind.invalidParam "Could not convert event to canonical json."))
    | some (event_id, value) =>
      match value.origin with
      | none =>
        (st, Except.error (Error.badRequest ErrorKind.invalidParam "Event needs an origin field."))
      | some origin_str =>
        match env.parse_server_name origin_str with
        | none =>
          (st, Except.error (Error.badRequest ErrorKind.invalidParam "Origin field is invalid."))
        | some origin =>
          match env.handle_incoming_pdu st origin event_id room_id value with
          | (st1, Except.error _) =>
            (st1, Except.error
              (Error.badRequest ErrorKind.invalidParam "Error while handling incoming PDU."))
          | (st1, Except.ok none) =>
            (st1, Except.error
              (Error.badRequest ErrorKind.invalidParam
                "Could not accept incoming PDU as timeline event."))
          | (st1, Except.ok (some _pdu_id)) =>
            let state_ids := st1.snapshots shortstatehash
            let auth_chain_ids := env.auth_chain_of st1 room_id state_ids
            (st1, Except.ok
              { auth_chain := auth_chain_ids.filter (fun id => st1.pdu_store id),
                state := state_ids.filter (fun id => st1.pdu_store id) })

/-- Translation of create_join_event: federation toggle, room existence, ACL
and join-rule gates, then the admission tail. The send_pdu fan-out to other
room servers is an outbound side effect on the sending queue and is not
modelled. -/
def create_join_event (env : JoinEnv) (st : RoomsState)
    (sender_servername room_id : String) (pdu : String) :
    RoomsState × Except Error RoomStateResp :=
  if !env.allow_federation then
    (st, Except.error (Error.badConfig "Federation is disabled."))
  else if !(st.room_exists room_id) then
    (st, Except.error (Error.badRequest ErrorKind.notFound "Room is unknown to this server."))
  else
    match acl_check { room_state_acl := st.acl_blob, deserialize_acl := env.deserialize_acl }
        sender_servername room_id with
    | Except.error e => (st, Except.error e)
    | Except.ok _ =>
      match st.join_rules_blob room_id with
      | some blob =>
        match env.deserialize_join_rules blob with
        | none => (st, Except.error (Error.badDatabase "Invalid join rules event in db."))
        | some jr =>
          if jr.restricted then
            (st, Except.error
              (Error.badRequest ErrorKind.unknown "Conduit does not support restricted rooms yet."))
          else create_join_event_admit env st room_id pdu
      | none => create_join_event_admit env st room_id pdu

/-! ## Concrete instances used to evaluate the development on closed inputs -/

/-- Boolean success test for Except values. -/
def is_ok {e a : Type} : Except e a → Bool
  | Except.ok _ => true
  | Except.error _ => false

/-- Transaction environment with one well-formed and any number of malformed
PDUs: only the string goodpdu converts to canonical json, no room has an ACL
event, and admission always succeeds. -/
def txnEnvC1 : TxnEnv :=
  { gen_event_id_canonical_json := fun p =>
      if p = "goodpdu" then some ("$good", { room_id := some "!room", origin := none }) else none,
    parse_room_id := fun r => some r,
    acl := { room_state_acl := fun _ => none, deserialize_acl := fun _ => none },
    handle_incoming_pdu := fun _ _ _ _ => Except.ok () }

/-- Transaction environment with two well-formed PDUs targeting two rooms, of
which the first room carries an ACL event denying every server. -/
def txnEnvC2 : TxnEnv :=
  { gen_event_id_canonical_json := fun p =>
      if p = "pdu1" then some ("$one", { room_id := some "!acl", origin := none })
      else if p = "pdu2" then some ("$two", { room_id := some "!free", origin := none })
      else none,
    parse_room_id := fun r => some r,
    acl := { room_state_acl := fun r => if r = "!acl" then some "aclcontent" else none,
             deserialize_acl := fun _ => some { is_allowed := fun _ => false } },
    handle_incoming_pdu := fun _ _ _ _ => Except.ok () }

/-- Device environment where every user has one device and every event
deserializes. -/
def devEnvC2 : DeviceEnv :=
  { all_device_ids := fun _ => ["dev1"], deserialize_event := fun e => some e }

/-- Empty to-device state. -/
def stDev0 : DeviceState := { txn_ledger := [], deliveries := [] }

/-- One DirectToDevice EDU addressed to a single named device. -/
def eduC2 : Edu :=
  Edu.directToDevice
    { sender := "@u:remote", ev_type := "m.new_device", message_id := "mid1",
      messages := [("@v:local", [(DeviceIdOrAllDevices.deviceId "dev1", "payload")])] }

/-- Signing key environment whose backoff ledger holds one failure recorded
at time 0 for the only signature id, while the local cache already contains
that id. -/
def fskEnvC3 : FskEnv :=
  { bad_signature_ratelimiter := [(["ed25519:k1"], (0, 1))],
    signing_keys_for := fun _ => [("ed25519:k1", "pubkey")],
    trusted_servers := ["notary.example"] }

/-- Network oracle where every request fails. -/
def fskNetC3 : FskNet :=
  { direct_server_key := none, notary_server_keys := fun _ => none }

/-- Network oracle where the direct key query succeeds, used to observe
network independence. -/
def fskNetC5 : FskNet :=
  { direct_server_key := some ([("ed25519:k1", "otherkey")], []),
    notary_server_keys := fun _ => none }

/-- Two-event store in room r where the auth events of the first event
reference one stored and one missing event. -/
def storeC4 : PduStore :=
  [("$a", { room_id := "!r", auth_events := ["$b", "$c"] }),
   ("$c", { room_id := "!r", auth_events := [] })]

/-- Store whose only event is filed under a different room. -/
def storeC4evil : PduStore :=
  [("$a", { room_id := "!other", auth_events := [] })]

/-- Short id allocator for the concrete stores. -/
def sidC4 : String → Nat := fun e => e.length

/-- Dispatcher environment for a successful fresh request. -/
def sendEnvOk : SendReqEnv :=
  { allow_federation := true,
    find_actual_destination := fun _ =>
      (FedDest.Named "srv.example" ":8448", FedDest.Named "srv.example" ""),
    build_request_ok := fun _ => true,
    network := some (200, true, true) }

/-- Dispatcher environment for a request answered with a structured 404. -/
def sendEnvErr : SendReqEnv :=
  { allow_federation := true,
    find_actual_destination := fun _ =>
      (FedDest.Named "srv.example" ":8448", FedDest.Named "srv.example" ""),
    build_request_ok := fun _ => true,
    network := some (404, true, true) }

/-- Rooms state for the join witness: the room exists, has no ACL and no join
rules event, its current state hash is 7, and every snapshot is the one
state event. -/
def roomsStC7 : RoomsState :=
  { room_exists := fun r => r = "!join",
    acl_blob := fun _ => none,
    join_rules_blob := fun _ => none,
    current_shortstatehash := fun r => if r = "!join" then some 7 else none,
    snapshots := fun _ => ["$state1"],
    pdu_store := fun _ => true }

/-- Join environment for the join witness: admission succeeds and leaves the
rooms state unchanged, and the auth chain of a state set is the state set
itself. -/
def joinEnvC7 : JoinEnv :=
  { allow_federation := true,
    deserialize_acl := fun _ => none,
    deserialize_join_rules := fun _ => none,
    gen_event_id_canonical_json := fun p =>
      if p = "joinpdu" then some ("$join", { room_id := some "!join", origin := some "joiner.example" })
      else none,
    parse_server_name := fun o => some o,
    handle_incoming_pdu := fun st0 _ _ _ _ => (st0, Except.ok (some "pduid1")),
    auth_chain_of := fun _ _ ids => ids }

/-- Device environment for the idempotency witness: two devices per user,
every event deserializes. -/
def devEnvC8 : DeviceEnv :=
  { all_device_ids := fun _ => ["d1", "d2"], deserialize_event := fun e => some e }

/-- DirectToDevice content for the idempotency witness, addressed to all
devices of one user. -/
def contentC8 : DirectDeviceContent :=
  { sender := "@u:remote", ev_type := "m.room_key_request", message_id := "txn1",
    messages := [("@t:local", [(DeviceIdOrAllDevices.allDevices, "ev")])] }

/-- State after the first successful processing of contentC8 from the empty
state. -/
def stDevC8 : DeviceState :=
  { txn_ledger := [(("@u:remote", none, "txn1"), [])],
    deliveries :=
      [{ sender := "@u:remote", target_user := "@t:local", target_device := "d1",
         ev_type := "m.room_key_request", event := "ev" },
       { sender := "@u:remote", target_user := "@t:local", target_device := "d2",
         ev_type := "m.room_key_request", event := "ev" }] }

/-- Response of the concrete join of the C7 witness. -/
def respC7 : RoomStateResp := { auth_chain := ["$state1"], state := ["$state1"] }

/-- Socket address parser recognizing exactly the test vector with a port. -/
def parseSockC9 : String → Option SocketAddr := fun s =>
  if s = "1.1.1.1:1234" then some { ip := IpAddr.v4 1 1 1 1, port := 1234 } else none

/-- IP parser recognizing exactly the test vector without a port. -/
def parseIpC9 : String → Option IpAddr := fun s =>
  if s = "1.1.1.1" then some (IpAddr.v4 1 1 1 1) else none

/-- ACL environment whose only ACL event has undeserializable content. -/
def aclEnvC10 : AclEnv :=
  { room_state_acl := fun r => if r = "!rm" then some "garbage" else none,
    deserialize_acl := fun _ => none }

/-! ## Theorems -/

/-- Claim C10: ACL enforcement fails open on corrupt state. For every server
name and room: a missing ACL event allows the server, an ACL event whose
content does not deserialize allows the server exactly as if no ACL event
existed, a well-formed ACL allowing the server yields Ok, and only a
well-formed ACL disallowing the server yields the Forbidden error. -/
theorem c10_acl_fails_open : ∀ (env : AclEnv) (server_name room_id : String),
    (env.room_state_acl room_id = none → acl_check env server_name room_id = Except.ok ()) ∧
    (∀ blob, env.room_state_acl room_id = some blob → env.deserialize_acl blob = none →
      acl_check env server_name room_id = Except.ok ()) ∧
    (∀ blob content, env.room_state_acl room_id = some blob →
      env.deserialize_acl blob = some content → content.is_allowed server_name = true →
      acl_check env server_name room_id = Except.ok ()) ∧
    (∀ blob content, env.room_state_acl room_id = some blob →
      env.deserialize_acl blob = some content → content.is_allowed server_name = false →
      acl_check env server_name room_id
        = Except.error (Error.badRequest ErrorKind.forbidden "Server was denied by ACL")) := by
  intro env server_name room_id
  refine ⟨?_, ?_, ?_, ?_⟩
  · intro h1; simp [acl_check, h1]
  · intro blob h1 h2; simp [acl_check, h1, h2]
  · intro blob content h1 h2 h3; simp [acl_check, h1, h2, h3]
  · intro blob content h1 h2 h3; simp [acl_check, h1, h2, h3]

/-- Witness for C10: a room whose ACL event content does not deserialize is
treated as if no ACL existed, so any server is allowed. -/
theorem c10_acl_fails_open_witness :
    acl_check aclEnvC10 "any.server" "!rm" = Except.ok () :=
  (c10_acl_fails_open aclEnvC10 "any.server" "!rm").2.1 "garbage" rfl rfl

/-- Claim C9: destination-string parsing is total and port-preserving.
get_ip_with_port returns a Literal exactly when one of the two standard
parsers succeeds, keeping an explicitly parsed socket address (with its
port) as is and defaulting the port to 8448 when only a bare IP parses;
add_port_to_hostname always returns a Named destination carrying the
default :8448 suffix when the input has no colon and the input suffix from
its first colon otherwise, that suffix starting with a colon and
concatenating with the host back to the input. Both functions are total
Lean functions, so neither panics nor fails. -/
theorem c9_destination_parsing_total :
    ∀ (parseSocketAddr : String → Option SocketAddr) (parseIpAddr : String → Option IpAddr)
      (s : String),
    (∀ addr, parseSocketAddr s = some addr →
      get_ip_with_port parseSocketAddr parseIpAddr s = some (FedDest.Literal addr)) ∧
    (∀ ip, parseSocketAddr s = none → parseIpAddr s = some ip →
      get_ip_with_port parseSocketAddr parseIpAddr s
        = some (FedDest.Literal { ip := ip, port := 8448 })) ∧
    (parseSocketAddr s = none → parseIpAddr s = none →
      get_ip_with_port parseSocketAddr parseIpAddr s = none) ∧
    (s.data.contains ':' = false → add_port_to_hostname s = FedDest.Named s ":8448") ∧
    (s.data.contains ':' = true →
      add_port_to_hostname s
        = FedDest.Named (String.mk (s.data.takeWhile (fun c => c != ':')))
            (String.mk (s.data.dropWhile (fun c => c != ':'))) ∧
      (s.data.takeWhile (fun c => c != ':')) ++ (s.data.dropWhile (fun c => c != ':'))
        = s.data ∧
      ∃ t, (s.data.dropWhile (fun c => c != ':')) = ':' :: t) := by
  intro ps pi s
  have hdrop : ∀ (l : List Char), ':' ∈ l →
      ∃ t, l.dropWhile (fun c => c != ':') = ':' :: t := by
    intro l
    induction l with
    | nil => intro h; exact absurd h (List.not_mem_nil ':')
    | cons a tl ih =>
      intro h
      by_cases ha : a = ':'
      · subst ha
        exact ⟨tl, by simp [List.dropWhile_cons]⟩
      · have htl : ':' ∈ tl := by
          rcases List.mem_cons.1 h with h1 | h1
          · exact absurd h1.symm ha
          · exact h1
        obtain ⟨t, ht⟩ := ih htl
        refine ⟨t, ?_⟩
        rw [List.dropWhile_cons]
        simpa [ha] using ht
  refine ⟨?_, ?_, ?_, ?_, ?_⟩
  · intro addr h1; simp [get_ip_with_port, h1]
  · intro ip h1 h2; simp [get_ip_with_port, h1, h2]
  · intro h1 h2; simp [get_ip_with_port, h1, h2]
  · intro h1
    have h1m : ':' ∉ s.data := by simpa using h1
    simp [add_port_to_hostname, h1m]
  · intro h1
    have h1m : ':' ∈ s.data := by simpa using h1
    exact ⟨by simp [add_port_to_hostname, h1m],
      List.takeWhile_append_dropWhile (fun c => c != ':') s.data, hdrop s.data h1m⟩

/-- Witness for C9: the test vectors of the source module evaluated through
the theorem, with parsers recognizing the concrete literals. -/
theorem c9_destination_parsing_total_witness :
    get_ip_with_port parseSockC9 parseIpC9 "1.1.1.1"
      = some (FedDest.Literal { ip := IpAddr.v4 1 1 1 1, port := 8448 }) ∧
    get_ip_with_port parseSockC9 parseIpC9 "1.1.1.1:1234"
      = some (FedDest.Literal { ip := IpAddr.v4 1 1 1 1, port := 1234 }) ∧
    add_port_to_hostname "example.com" = FedDest.Named "example.com" ":8448" ∧
    add_port_to_hostname "example.com:1337" = FedDest.Named "example.com" ":1337" := by
  refine ⟨?_, ?_, ?_, ?_⟩
  · exact (c9_destination_parsing_total parseSockC9 parseIpC9 "1.1.1.1").2.1
      (IpAddr.v4 1 1 1 1) rfl rfl
  · exact (c9_destination_parsing_total parseSockC9 parseIpC9 "1.1.1.1:1234").1
      { ip := IpAddr.v4 1 1 1 1, port := 1234 } rfl
  · exact (c9_destination_parsing_total parseSockC9 parseIpC9 "example.com").2.2.2.1 rfl
  · exact ((c9_destination_parsing_total parseSockC9 parseIpC9 "example.com:1337").2.2.2.2
      rfl).1

/-- Counterexample to claim C1 as stated: in a transaction of two PDUs whose
first fails canonical-json conversion, the returned map has a single entry;
the malformed PDU is not marked failed in the response, it has no entry at
all. -/
theorem c1_per_pdu_entry_counterexample :
    process_pdus txnEnvC1 "sender.example" ["badpdu", "goodpdu"]
      = Except.ok [("$good", Except.ok ())] ∧
    [("$good", (Except.ok () : Except String Unit))].length
      ≠ ["badpdu", "goodpdu"].length := by
  exact ⟨rfl, by decide⟩

/-- Claim C1 amended: a PDU failing canonical-json conversion is silently
skipped (the response contains no entry for it, failed or otherwise) while
every other PDU of the batch is processed exactly as if the malformed PDU
had not been submitted; in particular no single malformed PDU aborts the
batch. -/
theorem c1_malformed_pdu_skipped :
    ∀ (env : TxnEnv) (sender : String) (xs ys : List String) (bad : String),
    env.gen_event_id_canonical_json bad = none →
    process_pdus env sender (xs ++ bad :: ys) = process_pdus env sender (xs ++ ys) := by
  intro env sender xs ys bad hbad
  induction xs with
  | nil => simp [process_pdus, hbad]
  | cons x xs ih =>
    cases hg : env.gen_event_id_canonical_json x with
    | none => simp [List.cons_append, process_pdus, hg, ih]
    | some ev =>
      obtain ⟨event_id, value⟩ := ev
      cases hr : value.room_id.bind env.parse_room_id with
      | none => simp [List.cons_append, process_pdus, hg, hr, ih]
      | some room_id =>
        cases ha : acl_check env.acl sender room_id with
        | error e => simp [List.cons_append, process_pdus, hg, hr, ha]
        | ok u => simp [List.cons_append, process_pdus, hg, hr, ha, ih]

/-- Witness for C1: with the concrete environment, submitting the malformed
PDU alongside the good one produces exactly the same outcome as submitting
the good one alone. -/
theorem c1_malformed_pdu_skipped_witness :
    process_pdus txnEnvC1 "sender.example" ["goodpdu", "badpdu"]
      = process_pdus txnEnvC1 "sender.example" ["goodpdu"] :=
  c1_malformed_pdu_skipped txnEnvC1 "sender.example" ["goodpdu"] [] "badpdu" rfl

/-- Counterexample to claim C2 as stated: with two well-formed PDUs, the
first targeting an ACL-denying room, and one DirectToDevice EDU, the entire
route call fails with the Forbidden error: the sibling PDU result is
discarded and the EDU leaves no trace in the to-device state. -/
theorem c2_acl_isolation_counterexample :
    send_transaction_message_route txnEnvC2 devEnvC2 true stDev0 "evil.example"
        ["pdu1", "pdu2"] [eduC2]
      = (stDev0,
         Except.error (Error.badRequest ErrorKind.forbidden "Server was denied by ACL")) := by
  rfl

/-- Claim C2 amended: a PDU whose room Server ACL denies the sending server
aborts the entire transaction, not only that PDU: whenever the PDUs before
it process without an aborting error, the whole route call returns the ACL
error, the per-PDU results gathered so far are discarded, the following
PDUs are not processed, and no EDU is processed (the to-device state is
returned unchanged). -/
theorem c2_acl_denial_aborts_transaction :
    ∀ (env : TxnEnv) (denv : DeviceEnv) (st : DeviceState) (sender : String)
      (xs : List String) (bad : String) (rest : List String) (edus : List Edu)
      (eid : String) (value : CanonicalJsonObject) (room : String) (e : Error)
      (m : List (String × Except String Unit)),
    env.gen_event_id_canonical_json bad = some (eid, value) →
    value.room_id.bind env.parse_room_id = some room →
    acl_check env.acl sender room = Except.error e →
    process_pdus env sender xs = Except.ok m →
    send_transaction_message_route env denv true st sender (xs ++ bad :: rest) edus
      = (st, Except.error e) := by
  intro env denv st sender xs bad rest edus eid value room e m hgen hroom hacl hok
  have habort : process_pdus env sender (xs ++ bad :: rest) = Except.error e := by
    induction xs generalizing m with
    | nil => simp [process_pdus, hgen, hroom, hacl]
    | cons x xs ih =>
      cases hg : env.gen_event_id_canonical_json x with
      | none =>
        rw [process_pdus, hg] at hok
        simp [List.cons_append, process_pdus, hg, ih m hok]
      | some ev =>
        obtain ⟨eid2, value2⟩ := ev
        cases hr : value2.room_id.bind env.parse_room_id with
        | none =>
          rw [process_pdus, hg] at hok
          simp only [hr] at hok
          cases htail : process_pdus env sender xs with
          | error e2 => rw [htail] at hok; exact absurd hok (by simp)
          | ok m2 => simp [List.cons_append, process_pdus, hg, hr, ih m2 htail]
        | some room2 =>
          cases ha : acl_check env.acl sender room2 with
          | error e2 =>
            rw [process_pdus, hg] at hok
            simp only [hr, ha] at hok
            exact absurd hok (by simp)
          | ok u =>
            rw [process_pdus, hg] at hok
            simp only [hr, ha] at hok
            cases htail : process_pdus env sender xs with
            | error e2 => rw [htail] at hok; exact absurd hok (by simp)
            | ok m2 => simp [List.cons_append, process_pdus, hg, hr, ha, ih m2 htail]
  simp [send_transaction_message_route, habort]

/-- Witness for C2: concrete instantiation of the amended theorem, with the
denied PDU preceded by one successfully processed PDU. -/
theorem c2_acl_denial_aborts_transaction_witness :
    send_transaction_message_route txnEnvC2 devEnvC2 true stDev0 "evil.example"
        (["pdu2"] ++ "pdu1" :: []) [eduC2]
      = (stDev0,
         Except.error (Error.badRequest ErrorKind.forbidden "Server was denied by ACL")) :=
  c2_acl_denial_aborts_transaction txnEnvC2 devEnvC2 stDev0 "evil.example"
    ["pdu2"] "pdu1" [] [eduC2] "$one" { room_id := some "!acl", origin := none } "!acl"
    (Error.badRequest ErrorKind.forbidden "Server was denied by ACL")
    [("$two", Except.ok ())] rfl rfl rfl rfl

/-- Claim C6: the destination cache only ever contains verified resolutions.
For every call of send_request, either the cache is returned unchanged, or
the call succeeded (HTTP 200 with a well-decoded typed response), the
destination was not already cached, and exactly one entry for that
destination was prepended; in particular every error outcome (federation
disabled, build failure, network error, non-200 status, malformed 200 body)
leaves the cache unchanged, and a fresh verified resolution is indeed
written back. -/
theorem c6_destination_cache_writes :
    ∀ (env : SendReqEnv) (cache : DestCache) (destination : String),
    ((send_request env cache destination).2 = cache ∨
      ((send_request env cache destination).1 = Except.ok () ∧
       cache.lookup destination = none ∧
       ∃ v, (send_request env cache destination).2 = (destination, v) :: cache)) ∧
    (∀ e, (send_request env cache destination).1 = Except.error e →
      (send_request env cache destination).2 = cache) ∧
    (env.allow_federation = true → cache.lookup destination = none →
     (∀ str, env.build_request_ok str = true) →
     ∀ d2, env.network = some (200, true, d2) →
      ∃ v, (send_request env cache destination).2 = (destination, v) :: cache) := by
  intro env cache destination
  by_cases hA : env.allow_federation = true
  · cases hc : cache.lookup destination with
    | some v =>
      have hres : (send_request env cache destination).2 = cache := by
        unfold send_request
        simp only [hA, Bool.not_true, Bool.false_eq_true, if_false, hc, Option.isNone_some]
        cases hb : env.build_request_ok (v.1.into_https_string) with
        | false => simp
        | true =>
          simp only [Bool.not_true, Bool.false_eq_true, if_false]
          cases hn : env.network with
          | none => simp
          | some resp =>
            obtain ⟨status, d1, d2⟩ := resp
            by_cases hs : status == 200
            · cases d1 <;> simp [hs]
            · cases d2 <;> simp [hs]
      exact ⟨Or.inl hres, fun e _ => hres,
        fun _ hnone => absurd hnone (by simp)⟩
    | none =>
      cases hb : env.build_request_ok
          ((env.find_actual_destination destination).1.into_https_string) with
      | false =>
        have hres : send_request env cache destination
            = (Except.error (Error.badServerResponse "Invalid destination"), cache) := by
          unfold send_request
          simp [hA, hc, hb]
        refine ⟨Or.inl (by rw [hres]), fun e _ => by rw [hres], ?_⟩
        intro _ _ hbuild _ _
        rw [hbuild ((env.find_actual_destination destination).1.into_https_string)] at hb
        exact absurd hb (by simp)
      | true =>
        cases hn : env.network with
        | none =>
          have hres : send_request env cache destination
              = (Except.error Error.networkError, cache) := by
            unfold send_request
            simp [hA, hc, hb, hn]
          refine ⟨Or.inl (by rw [hres]), fun e _ => by rw [hres], ?_⟩
          intro _ _ _ d2 hnet
          exact absurd hnet (by simp)
        | some resp =>
          obtain ⟨status, d1, d2⟩ := resp
          by_cases hs : status = 200
          · subst hs
            cases d1 with
            | true =>
              have hres : send_request env cache destination
                  = (Except.ok (),
                     (destination,
                       ((env.find_actual_destination destination).1,
                        (env.find_actual_destination destination).2.into_uri_string)) :: cache) := by
                unfold send_request
                simp [hA, hc, hb, hn]
              refine ⟨Or.inr ⟨by rw [hres], rfl, ⟨_, by rw [hres]⟩⟩, ?_, ?_⟩
              · intro e he
                rw [hres] at he
                exact absurd he (by simp)
              · intro _ _ _ _ _
                exact ⟨_, by rw [hres]⟩
            | false =>
              have hres : send_request env cache destination
                  = (Except.error (Error.badServerResponse "Server returned bad 200 response."),
                     cache) := by
                unfold send_request
                simp [hA, hc, hb, hn]
              refine ⟨Or.inl (by rw [hres]), fun e _ => by rw [hres], ?_⟩
              intro _ _ _ d2x hnet
              simp at hnet
          · have hs2 : (status == 200) = false := by simpa using hs
            cases d2 with
            | true =>
              have hres : send_request env cache destination
                  = (Except.error (Error.federationError destination), cache) := by
                unfold send_request
                simp [hA, hc, hb, hn, hs2]
              refine ⟨Or.inl (by rw [hres]), fun e _ => by rw [hres], ?_⟩
              intro _ _ _ d2x hnet
              simp at hnet
              exact absurd hnet.1 hs
            | false =>
              have hres : send_request env cache destination
                  = (Except.error (Error.badServerResponse "Server returned bad error response."),
                     cache) := by
                unfold send_request
                simp [hA, hc, hb, hn, hs2]
              refine ⟨Or.inl (by rw [hres]), fun e _ => by rw [hres], ?_⟩
              intro _ _ _ d2x hnet
              simp at hnet
              exact absurd hnet.1 hs
  · have hA2 : env.allow_federation = false := by simpa using hA
    have hres : send_request env cache destination
        = (Except.error (Error.badConfig "Federation is disabled."), cache) := by
      unfold send_request
      simp [hA2]
    refine ⟨Or.inl (by rw [hres]), fun e _ => by rw [hres], ?_⟩
    intro hAt
    rw [hAt] at hA2
    exact absurd hA2 (by simp)

/-- Witness for C6: a structured 404 response leaves the cache unchanged,
and a fresh successful 200 response writes the verified resolution back. -/
theorem c6_destination_cache_writes_witness :
    (send_request sendEnvErr [] "srv.example").2 = [] ∧
    (send_request sendEnvOk [] "srv.example").2
      = [("srv.example", (FedDest.Named "srv.example" ":8448", "srv.example"))] := by
  constructor
  · exact (c6_destination_cache_writes sendEnvErr [] "srv.example").2.1
      (Error.federationError "srv.example") rfl
  · obtain ⟨v, -⟩ := (c6_destination_cache_writes sendEnvOk [] "srv.example").2.2
      rfl rfl (fun _ => rfl) true rfl
    rfl

/-- Counterexample to claim C3 as stated: with the single required id present
in the local key cache but the backoff ledger still inside its window, the
fetch fails fast instead of returning the cached mapping, so the cache check
does not precede the backoff check. -/
theorem c3_cache_first_counterexample :
    (fetch_signing_keys fskEnvC3 fskNetC3 "remote.example" ["ed25519:k1"] 10).1
      = Except.error (Error.badServerResponse "bad signature, still backing off") ∧
    contains_all_ids ["ed25519:k1"] (fskEnvC3.signing_keys_for "remote.example") = true :=
  ⟨rfl, rfl⟩

/-- Claim C3 amended: the backoff check precedes the cache check. Whenever
the backoff ledger does not veto the call (no entry for the required id set,
or the elapsed time has reached the window), and the locally cached signing
keys contain all required ids, fetch_signing_keys returns the cached mapping
immediately and successfully, the ledger is unchanged, and the outcome is
independent of the network oracles (no network call is consulted). -/
theorem c3_cache_hit_after_backoff_gate :
    ∀ (env : FskEnv) (net : FskNet) (origin : String) (ids : List String) (now : Nat),
    (∀ time tries, env.bad_signature_ratelimiter.lookup ids = some (time, tries) →
      min_elapsed_duration tries ≤ now - time) →
    contains_all_ids ids (env.signing_keys_for origin) = true →
    fetch_signing_keys env net origin ids now
      = (Except.ok (env.signing_keys_for origin), env.bad_signature_ratelimiter) ∧
    (∀ net2, fetch_signing_keys env net2 origin ids now
      = fetch_signing_keys env net origin ids now) := by
  intro env net origin ids now hbo hcache
  have hmain : ∀ nt : FskNet, fetch_signing_keys_main env nt origin ids now
      = (Except.ok (env.signing_keys_for origin), env.bad_signature_ratelimiter) := by
    intro nt
    unfold fetch_signing_keys_main
    simp [hcache]
  have hfetch : ∀ nt : FskNet, fetch_signing_keys env nt origin ids now
      = (Except.ok (env.signing_keys_for origin), env.bad_signature_ratelimiter) := by
    intro nt
    unfold fetch_signing_keys
    cases hl : env.bad_signature_ratelimiter.lookup ids with
    | none => exact hmain nt
    | some p =>
      obtain ⟨time, tries⟩ := p
      have hge := hbo time tries hl
      have hnot : ¬ (now - time < min_elapsed_duration tries) := not_lt.mpr hge
      simp [hnot, hmain nt]
  exact ⟨hfetch net, fun net2 => (hfetch net2).trans (hfetch net).symm⟩

/-- Witness for C3: once the window has passed (now 50, entry recorded at 0
with one failure, window 30), the cached key map is returned unchanged and
two different network oracles give the same outcome. -/
theorem c3_cache_hit_after_backoff_gate_witness :
    fetch_signing_keys fskEnvC3 fskNetC3 "remote.example" ["ed25519:k1"] 50
      = (Except.ok [("ed25519:k1", "pubkey")], [(["ed25519:k1"], (0, 1))]) ∧
    fetch_signing_keys fskEnvC3 fskNetC5 "remote.example" ["ed25519:k1"] 50
      = fetch_signing_keys fskEnvC3 fskNetC3 "remote.example" ["ed25519:k1"] 50 := by
  have h := c3_cache_hit_after_backoff_gate fskEnvC3 fskNetC3 "remote.example"
    ["ed25519:k1"] 50
    (by
      intro time tries hl
      rw [show fskEnvC3.bad_signature_ratelimiter.lookup ["ed25519:k1"]
          = some (0, 1) from rfl] at hl
      simp only [Option.some.injEq, Prod.mk.injEq] at hl
      rw [← hl.1, ← hl.2]
      decide)
    rfl
  exact ⟨h.1, h.2 fskNetC5⟩

/-- Lookup of the backoff ledger right after one back_off call on the same
key: the time is updated and the attempt count incremented (1 for a vacant
entry). -/
theorem lookup_back_off_self : ∀ (now : Nat) (id : List String) (l : BackoffLedger),
    (back_off now id l).lookup id
      = some (now, (match l.lookup id with | none => 0 | some p => p.2) + 1) := by
  intro now id l
  induction l with
  | nil => simp [back_off, List.lookup]
  | cons kv rest ih =>
    obtain ⟨k, t, n⟩ := kv
    by_cases hk : k = id
    · subst hk
      simp [back_off, List.lookup]
    · have hk1 : (k == id) = false := by simpa using hk
      have hk2 : (id == k) = false := by simpa using Ne.symm hk
      simp [back_off, hk1, hk2, List.lookup, ih]

/-- Lookup of the backoff ledger after a sequence of failures on the same
key, starting from an existing entry: the count grows by the number of
failures. -/
theorem lookup_record_failures_count :
    ∀ (times : List Nat) (l : BackoffLedger) (id : List String) (t0 n0 : Nat),
    l.lookup id = some (t0, n0) →
    ∃ last, (record_failures id times l).lookup id = some (last, n0 + times.length) := by
  intro times
  induction times with
  | nil => intro l id t0 n0 h; exact ⟨t0, by simpa [record_failures] using h⟩
  | cons t ts ih =>
    intro l id t0 n0 h
    have hb : (back_off t id l).lookup id = some (t, n0 + 1) := by
      rw [lookup_back_off_self]
      simp [h]
    obtain ⟨last, hl⟩ := ih (back_off t id l) id t (n0 + 1) hb
    refine ⟨last, ?_⟩
    rw [show record_failures id (t :: ts) l = record_failures id ts (back_off t id l) from rfl,
      hl]
    simp only [List.length_cons, Option.some.injEq, Prod.mk.injEq]
    exact ⟨trivial, by omega⟩

/-- Claim C5: the backoff ledgers compute the exact exponential window. For
an attempt count t the minimum wait is min of 30 t squared seconds and 24
hours, is capped by 24 hours, and strictly increases while the next value is
still below the cap; after t recorded failures on a fresh key the ledger
holds attempt count t; and while the elapsed time since the recorded failure
is below the window, fetch_signing_keys fails fast with BadServerResponse,
independently of the network oracles. -/
theorem c5_backoff_window :
    ∀ (env : FskEnv) (net : FskNet) (origin : String) (ids : List String)
      (now time tries : Nat) (id : List String) (times : List Nat) (ledger : BackoffLedger),
    (min_elapsed_duration tries = min (30 * tries * tries) 86400) ∧
    (min_elapsed_duration tries ≤ 86400) ∧
    (30 * (tries + 1) * (tries + 1) ≤ 86400 →
      min_elapsed_duration tries < min_elapsed_duration (tries + 1)) ∧
    (ledger.lookup id = none → times ≠ [] →
      ∃ last, (record_failures id times ledger).lookup id = some (last, times.length)) ∧
    (env.bad_signature_ratelimiter.lookup ids = some (time, tries) →
     now - time < min_elapsed_duration tries →
      (fetch_signing_keys env net origin ids now).1
        = Except.error (Error.badServerResponse "bad signature, still backing off") ∧
      (∀ net2, fetch_signing_keys env net2 origin ids now
        = fetch_signing_keys env net origin ids now)) := by
  intro env net origin ids now time tries id times ledger
  refine ⟨rfl, Nat.min_le_right _ _, ?_, ?_, ?_⟩
  · intro hcap
    have h1 : min_elapsed_duration (tries + 1) = 30 * (tries + 1) * (tries + 1) := by
      unfold min_elapsed_duration
      exact Nat.min_eq_left hcap
    have h2 : min_elapsed_duration tries ≤ 30 * tries * tries := Nat.min_le_left _ _
    have h3 : 30 * tries * tries < 30 * (tries + 1) * (tries + 1) := by
      nlinarith [Nat.mul_self_lt_mul_self (Nat.lt_succ_self tries)]
    exact lt_of_le_of_lt h2 (lt_of_lt_of_eq h3 h1.symm)
  · intro hnone hne
    cases times with
    | nil => exact absurd rfl hne
    | cons t ts =>
      have hb : (back_off t id ledger).lookup id = some (t, 1) := by
        rw [lookup_back_off_self]
        simp [hnone]
      obtain ⟨last, hl⟩ := lookup_record_failures_count ts (back_off t id ledger) id t 1 hb
      refine ⟨last, ?_⟩
      rw [show record_failures id (t :: ts) ledger
          = record_failures id ts (back_off t id ledger) from rfl, hl]
      simp only [List.length_cons, Option.some.injEq, Prod.mk.injEq]
      exact ⟨trivial, by omega⟩
  · intro hl hw
    have hall : ∀ nt : FskNet, fetch_signing_keys env nt origin ids now
        = (Except.error (Error.badServerResponse "bad signature, still backing off"),
           env.bad_signature_ratelimiter) := by
      intro nt
      unfold fetch_signing_keys
      simp [hl, hw]
    exact ⟨by rw [hall net], fun net2 => (hall net2).trans (hall net).symm⟩

/-- Witness for C5: the window for one failure is below the cap and below
the window for two failures; inside the window the concrete fetch fails
fast, with identical outcomes under two different network oracles. -/
theorem c5_backoff_window_witness :
    min_elapsed_duration 1 ≤ 86400 ∧
    min_elapsed_duration 1 < min_elapsed_duration 2 ∧
    (fetch_signing_keys fskEnvC3 fskNetC3 "remote.example" ["ed25519:k1"] 10).1
      = Except.error (Error.badServerResponse "bad signature, still backing off") ∧
    fetch_signing_keys fskEnvC3 fskNetC5 "remote.example" ["ed25519:k1"] 10
      = fetch_signing_keys fskEnvC3 fskNetC3 "remote.example" ["ed25519:k1"] 10 := by
  have h := c5_backoff_window fskEnvC3 fskNetC3 "remote.example" ["ed25519:k1"]
    10 0 1 ["x"] [5] []
  exact ⟨h.2.1, h.2.2.1 (by decide), (h.2.2.2.2 rfl (by decide)).1,
    (h.2.2.2.2 rfl (by decide)).2 fskNetC5⟩

/-- The add_to_device_event delivery never touches the transaction-id
ledger. -/
theorem add_to_device_event_ledger :
    ∀ (env : DeviceEnv) (st : DeviceState) (a b c d e : String),
    ((add_to_device_event env st a b c d e).1).txn_ledger = st.txn_ledger := by
  intro env st a b c d e
  unfold add_to_device_event
  cases env.deserialize_event e <;> simp

/-- The all-devices fan-out never touches the transaction-id ledger. -/
theorem deliver_to_all_devices_ledger :
    ∀ (env : DeviceEnv) (devs : List String) (st : DeviceState)
      (sender ev_type target_user event : String),
    ((deliver_to_all_devices env st sender ev_type target_user event devs).1).txn_ledger
      = st.txn_ledger := by
  intro env devs
  induction devs with
  | nil => intro st sender ev_type target_user event; simp [deliver_to_all_devices]
  | cons d rest ih =>
    intro st sender ev_type target_user event
    rw [deliver_to_all_devices]
    cases hadd : add_to_device_event env st sender target_user d ev_type event with
    | mk st1 r =>
      have h1 : st1.txn_ledger = st.txn_ledger := by
        rw [show st1 = (add_to_device_event env st sender target_user d ev_type event).1 by
          rw [hadd]]
        exact add_to_device_event_ledger env st sender target_user d ev_type event
      cases r with
      | none => simpa [ih st1 sender ev_type target_user event] using h1
      | some e => simpa using h1

/-- The per-user map fan-out never touches the transaction-id ledger. -/
theorem deliver_user_map_ledger :
    ∀ (env : DeviceEnv) (m : List (DeviceIdOrAllDevices × String)) (st : DeviceState)
      (sender ev_type target_user : String),
    ((deliver_user_map env st sender ev_type target_user m).1).txn_ledger
      = st.txn_ledger := by
  intro env m
  induction m with
  | nil => intro st sender ev_type target_user; simp [deliver_user_map]
  | cons p rest ih =>
    intro st sender ev_type target_user
    obtain ⟨dev, event⟩ := p
    cases dev with
    | deviceId d =>
      rw [deliver_user_map]
      cases hadd : add_to_device_event env st sender target_user d ev_type event with
      | mk st1 r =>
        have h1 : st1.txn_ledger = st.txn_ledger := by
          rw [show st1 = (add_to_device_event env st sender target_user d ev_type event).1 by
            rw [hadd]]
          exact add_to_device_event_ledger env st sender target_user d ev_type event
        cases r with
        | none => simpa [ih st1 sender ev_type target_user] using h1
        | some e => simpa using h1
    | allDevices =>
      rw [deliver_user_map]
      cases hdel : deliver_to_all_devices env st sender ev_type target_user event
          (env.all_device_ids target_user) with
      | mk st1 r =>
        have h1 : st1.txn_ledger = st.txn_ledger := by
          rw [show st1 = (deliver_to_all_devices env st sender ev_type target_user event
              (env.all_device_ids target_user)).1 by rw [hdel]]
          exact deliver_to_all_devices_ledger env (env.all_device_ids target_user) st
            sender ev_type target_user event
        cases r with
        | none => simpa [ih st1 sender ev_type target_user] using h1
        | some e => simpa using h1

/-- The whole DirectToDevice fan-out never touches the transaction-id
ledger. -/
theorem deliver_messages_ledger :
    ∀ (env : DeviceEnv) (msgs : List (String × List (DeviceIdOrAllDevices × String)))
      (st : DeviceState) (sender ev_type : String),
    ((deliver_messages env st sender ev_type msgs).1).txn_ledger = st.txn_ledger := by
  intro env msgs
  induction msgs with
  | nil => intro st sender ev_type; simp [deliver_messages]
  | cons p rest ih =>
    intro st sender ev_type
    obtain ⟨target_user, m⟩ := p
    rw [deliver_messages]
    cases hdel : deliver_user_map env st sender ev_type target_user m with
    | mk st1 r =>
      have h1 : st1.txn_ledger = st.txn_ledger := by
        rw [show st1 = (deliver_user_map env st sender ev_type target_user m).1 by rw [hdel]]
        exact deliver_user_map_ledger env m st sender ev_type target_user
      cases r with
      | none => simpa [ih st1 sender ev_type] using h1
      | some e => simpa using h1

/-- Claim C8: DirectToDevice processing is idempotent in the pair of sender
and message id. If the idempotency ledger already records the pair, the EDU
is skipped entirely: no message is delivered and no error is produced. A
successful processing is absorbing: replaying it is a no-op. On a failure
the transaction id is not recorded. And on first processing of a fresh pair
whose fan-out succeeds, the result is exactly the fanned-out state with the
transaction id then recorded with empty data. -/
theorem c8_direct_to_device_idempotent :
    ∀ (env : DeviceEnv) (st : DeviceState) (c : DirectDeviceContent),
    ((st.txn_ledger.lookup (c.sender, (none : Option String), c.message_id)).isSome = true →
      process_direct_to_device env st c = (st, none)) ∧
    (∀ st1, process_direct_to_device env st c = (st1, none) →
      process_direct_to_device env st1 c = (st1, none)) ∧
    (∀ st1 e, process_direct_to_device env st c = (st1, some e) →
      st1.txn_ledger = st.txn_ledger) ∧
    (∀ st1, st.txn_ledger.lookup (c.sender, (none : Option String), c.message_id) = none →
      deliver_messages env st c.sender c.ev_type c.messages = (st1, none) →
      process_direct_to_device env st c
        = ({ st1 with
             txn_ledger := ((c.sender, (none : Option String), c.message_id), ([] : List Nat))
               :: st1.txn_ledger }, none)) := by
  intro env st c
  have hskip : (st.txn_ledger.lookup (c.sender, (none : Option String), c.message_id)).isSome
        = true →
      process_direct_to_device env st c = (st, none) := by
    intro h
    unfold process_direct_to_device
    simp [h]
  refine ⟨hskip, ?_, ?_, ?_⟩
  · intro st1 hp
    by_cases h : (st.txn_ledger.lookup
        (c.sender, (none : Option String), c.message_id)).isSome = true
    · rw [hskip h] at hp
      have hst : st = st1 := congrArg Prod.fst hp
      rw [← hst]
      exact hskip h
    · have hfalse : (st.txn_ledger.lookup
          (c.sender, (none : Option String), c.message_id)).isSome = false :=
        Bool.eq_false_iff.mpr h
      unfold process_direct_to_device at hp
      rw [hfalse] at hp
      simp only [Bool.false_eq_true, if_false] at hp
      cases hdel : deliver_messages env st c.sender c.ev_type c.messages with
      | mk stD r =>
        rw [hdel] at hp
        cases r with
        | some e => exact absurd (congrArg Prod.snd hp) (by simp)
        | none =>
          have hst1 : st1 = { stD with
              txn_ledger := ((c.sender, (none : Option String), c.message_id), ([] : List Nat))
                :: stD.txn_ledger } := (congrArg Prod.fst hp).symm
          have hlook : (st1.txn_ledger.lookup
              (c.sender, (none : Option String), c.message_id)).isSome = true := by
            rw [hst1]
            simp [List.lookup]
          unfold process_direct_to_device
          simp [hlook]
  · intro st1 e hp
    by_cases h : (st.txn_ledger.lookup
        (c.sender, (none : Option String), c.message_id)).isSome = true
    · rw [hskip h] at hp
      exact absurd (congrArg Prod.snd hp) (by simp)
    · have hfalse : (st.txn_ledger.lookup
          (c.sender, (none : Option String), c.message_id)).isSome = false :=
        Bool.eq_false_iff.mpr h
      unfold process_direct_to_device at hp
      rw [hfalse] at hp
      simp only [Bool.false_eq_true, if_false] at hp
      cases hdel : deliver_messages env st c.sender c.ev_type c.messages with
      | mk stD r =>
        rw [hdel] at hp
        cases r with
        | none => exact absurd (congrArg Prod.snd hp) (by simp)
        | some e2 =>
          have hst1 : st1 = stD := (congrArg Prod.fst hp).symm
          rw [hst1, show stD = (deliver_messages env st c.sender c.ev_type c.messages).1 by
            rw [hdel]]
          exact deliver_messages_ledger env c.messages st c.sender c.ev_type
  · intro st1 hnone hdel
    unfold process_direct_to_device
    rw [hnone]
    simp only [Option.isSome_none, Bool.false_eq_true, if_false]
    rw [hdel]

/-- Witness for C8: replaying the concrete EDU after its first successful
processing (computed from the empty state) is a no-op. -/
theorem c8_direct_to_device_idempotent_witness :
    process_direct_to_device devEnvC8 stDevC8 contentC8 = (stDevC8, none) :=
  (c8_direct_to_device_idempotent devEnvC8 stDev0 contentC8).2.1 stDevC8 rfl

/-- The auth chain walk returns successfully whenever every stored PDU is
filed in the queried room, for any todo stack and found set: events missing
from storage are skipped and cannot fail the walk. -/
theorem get_auth_chain_walk_ok :
    ∀ (store : PduStore) (sid : String → Nat) (room_id : String)
      (todo : List String) (found : List Nat),
    (∀ k p, (k, p) ∈ store → p.room_id = room_id) →
    ∃ s, get_auth_chain_walk store sid room_id todo found = Except.ok s := by
  intro store sid room_id todo found hroom
  induction todo, found using get_auth_chain_walk.induct store sid room_id with
  | case1 found => exact ⟨found, by rw [get_auth_chain_walk]⟩
  | case2 event_id rest found pdu hfp hok ih =>
    obtain ⟨s, hs⟩ := ih
    refine ⟨s, ?_⟩
    rw [get_auth_chain_walk, hfp]
    simp only [hok, if_true]
    exact hs
  | case3 event_id rest found pdu hfp hbad =>
    exfalso
    have hmem : ∃ k, (k, pdu) ∈ store := by
      clear hbad hroom
      induction store with
      | nil => simp [find_pdu] at hfp
      | cons kv tl ih2 =>
        obtain ⟨k, v⟩ := kv
        by_cases hk : (k == event_id) = true
        · rw [find_pdu] at hfp
          rw [hk] at hfp
          simp only [if_true, Option.some.injEq] at hfp
          exact ⟨k, by rw [hfp]; exact List.mem_cons_self _ _⟩
        · rw [find_pdu] at hfp
          simp only [Bool.not_eq_true] at hk
          rw [hk] at hfp
          simp only [Bool.false_eq_true, if_false] at hfp
          obtain ⟨k2, hk2⟩ := ih2 hfp
          exact ⟨k2, List.mem_cons_of_mem _ hk2⟩
    obtain ⟨k, hk⟩ := hmem
    have := hroom k pdu hk
    simp [this] at hbad
  | case4 event_id rest found hfp ih =>
    obtain ⟨s, hs⟩ := ih
    refine ⟨s, ?_⟩
    rw [get_auth_chain_walk, hfp]
    exact hs

/-- Claim C4: during the auth chain DAG walk, an event id absent from
storage is skipped and the walk still returns successfully (whenever every
stored PDU belongs to the queried room, missing references notwithstanding),
whereas a stored event whose room differs from the queried room makes the
whole computation fail with the Forbidden evil-event error. -/
theorem c4_missing_skipped_wrong_room_fatal :
    ∀ (store : PduStore) (sid : String → Nat) (room_id start : String),
    ((∀ k p, (k, p) ∈ store → p.room_id = room_id) →
      is_ok (get_auth_chain_inner store sid room_id start) = true) ∧
    (∀ pdu, find_pdu store start = some pdu → pdu.room_id ≠ room_id →
      get_auth_chain_inner store sid room_id start
        = Except.error (Error.badRequest ErrorKind.forbidden "Evil event in db")) := by
  intro store sid room_id start
  constructor
  · intro hroom
    obtain ⟨s, hs⟩ := get_auth_chain_walk_ok store sid room_id [start] [] hroom
    rw [get_auth_chain_inner, hs]
    rfl
  · intro pdu hfp hne
    have hbad : (pdu.room_id == room_id) = false := by
      simpa using hne
    rw [get_auth_chain_inner, get_auth_chain_walk, hfp]
    simp [hbad]

/-- Witness for C4: the concrete store with a dangling auth reference walks
to success, and the store filed under the wrong room fails with the
Forbidden error. -/
theorem c4_missing_skipped_wrong_room_fatal_witness :
    is_ok (get_auth_chain_inner storeC4 sidC4 "!r" "$a") = true ∧
    get_auth_chain_inner storeC4evil sidC4 "!r" "$a"
      = Except.error (Error.badRequest ErrorKind.forbidden "Evil event in db") := by
  constructor
  · apply (c4_missing_skipped_wrong_room_fatal storeC4 sidC4 "!r" "$a").1
    intro k p h
    rw [show storeC4 = [("$a", { room_id := "!r", auth_events := ["$b", "$c"] }),
        ("$c", { room_id := "!r", auth_events := [] })] from rfl] at h
    rcases List.mem_cons.1 h with h1 | h1
    · rw [show p = (k, p).2 from rfl, h1]
    · rcases List.mem_cons.1 h1 with h2 | h2
      · rw [show p = (k, p).2 from rfl, h2]
      · exact absurd h2 (List.not_mem_nil _)
  · exact (c4_missing_skipped_wrong_room_fatal storeC4evil sidC4 "!r" "$a").2
      { room_id := "!other", auth_events := [] } rfl (by decide)

/-- Claim C7: for every successfully accepted join, the returned state
snapshot and auth chain are computed from the state hash captured before the
join event is admitted. Under the invariant that the external admission
operation never alters existing snapshots, and that the derived event id of
the submitted join is fresh (absent from every pre-join snapshot), the
returned state set is exactly the pre-join snapshot (filtered by PDU
availability), the returned auth chain is computed from that pre-join state
set (same filter), and the newly admitted join event is never contained in
the returned state. -/
theorem c7_join_returns_prejoin_state :
    ∀ (env : JoinEnv) (st : RoomsState) (sender room_id pdu : String)
      (st1 : RoomsState) (resp : RoomStateResp),
    (∀ st0 origin eid rid value,
      ((env.handle_incoming_pdu st0 origin eid rid value).1).snapshots = st0.snapshots) →
    (∀ eid value, env.gen_event_id_canonical_json pdu = some (eid, value) →
      ∀ h, eid ∉ st.snapshots h) →
    create_join_event env st sender room_id pdu = (st1, Except.ok resp) →
    ∃ shortstatehash, st.current_shortstatehash room_id = some shortstatehash ∧
      resp.state = (st.snapshots shortstatehash).filter (fun id => st1.pdu_store id) ∧
      resp.auth_chain
        = (env.auth_chain_of st1 room_id (st.snapshots shortstatehash)).filter
            (fun id => st1.pdu_store id) ∧
      (∀ eid value, env.gen_event_id_canonical_json pdu = some (eid, value) →
        eid ∉ resp.state) := by
  intro env st sender room_id pdu st1 resp hpres hfresh heq
  have heq2 : create_join_event_admit env st room_id pdu = (st1, Except.ok resp) := by
    unfold create_join_event at heq
    split at heq
    · exact absurd (congrArg Prod.snd heq) (by simp)
    · split at heq
      · exact absurd (congrArg Prod.snd heq) (by simp)
      · split at heq
        · exact absurd (congrArg Prod.snd heq) (by simp)
        · split at heq
          · split at heq
            · exact absurd (congrArg Prod.snd heq) (by simp)
            · split at heq
              · exact absurd (congrArg Prod.snd heq) (by simp)
              · exact heq
          · exact heq
  unfold create_join_event_admit at heq2
  split at heq2
  · exact absurd (congrArg Prod.snd heq2) (by simp)
  · rename_i shortstatehash hss
    refine ⟨shortstatehash, hss, ?_⟩
    split at heq2
    · exact absurd (congrArg Prod.snd heq2) (by simp)
    · rename_i event_id value hgen
      split at heq2
      · exact absurd (congrArg Prod.snd heq2) (by simp)
      · rename_i ostr hor
        split at heq2
        · exact absurd (congrArg Prod.snd heq2) (by simp)
        · rename_i origin hps
          split at heq2
          · exact absurd (congrArg Prod.snd heq2) (by simp)
          · exact absurd (congrArg Prod.snd heq2) (by simp)
          · rename_i stH pid hh
            have hst1 : stH = st1 := congrArg Prod.fst heq2
            have hresp := congrArg Prod.snd heq2
            simp only [Except.ok.injEq] at hresp
            have hsnap : stH.snapshots = st.snapshots := by
              rw [show stH = (env.handle_incoming_pdu st origin event_id room_id value).1 by
                rw [hh]]
              exact hpres st origin event_id room_id value
            have hstate : resp.state
                = (st.snapshots shortstatehash).filter (fun id => st1.pdu_store id) := by
              rw [← hresp]
              simp only
              rw [hsnap, hst1]
            have hauth : resp.auth_chain
                = (env.auth_chain_of st1 room_id (st.snapshots shortstatehash)).filter
                    (fun id => st1.pdu_store id) := by
              rw [← hresp]
              simp only
              rw [hsnap, hst1]
            refine ⟨hstate, hauth, ?_⟩
            intro eid2 value2 hgen2
            rw [hgen] at hgen2
            simp only [Option.some.injEq, Prod.mk.injEq] at hgen2
            rw [← hgen2.1]
            rw [hstate]
            intro hmem
            exact hfresh event_id value hgen shortstatehash (List.mem_of_mem_filter hmem)

/-- Witness for C7: the concrete join succeeds, returning the pre-join
snapshot, which does not contain the admitted join event. -/
theorem c7_join_returns_prejoin_state_witness :
    create_join_event joinEnvC7 roomsStC7 "joiner.example" "!join" "joinpdu"
      = (roomsStC7, Except.ok respC7) ∧ "$join" ∉ respC7.state := by
  have h := c7_join_returns_prejoin_state joinEnvC7 roomsStC7 "joiner.example" "!join"
    "joinpdu" roomsStC7 respC7
    (by intro st0 origin eid rid value; rfl)
    (by
      intro eid value hg hsh
      rw [show joinEnvC7.gen_event_id_canonical_json "joinpdu"
          = some ("$join", { room_id := some "!join", origin := some "joiner.example" })
          from rfl] at hg
      simp only [Option.some.injEq, Prod.mk.injEq] at hg
      rw [← hg.1]
      show ("$join" : String) ∉ (["$state1"] : List String)
      decide)
    rfl
  obtain ⟨ssh, h1, h2, h3, h4⟩ := h
  exact ⟨rfl, h4 "$join" { room_id := some "!join", origin := some "joiner.example" } rfl⟩

end Conduit
